import Mathlib

/-!
Verification development for the image-stitch repository.

The source is a TypeScript application.  This file gives a shallow
embedding of its core data model and algorithms:

* the pointer-driven region (crop) interaction state machine of
  ImageCropper (create / move / resize gestures over percentage
  coordinates, with an ephemeral "optimistic" rectangle committed on
  pointer-up);
* the asset graph operations of App.tsx (grouping, recursive group
  deletion, stitch-queue enqueue, list reorders);
* the geometric part of the pixel-composition functions in
  utils/imageUtils.ts (horizontal stitch) and the justified-row layout
  of generateSmartStitch.

Pixel coordinates and percentages are JavaScript numbers in the source;
they are modelled as exact rationals (ℚ), so clamping and corner
arithmetic are exact.  Fallible lookups are modelled with Option.
-/

/-- Mirrors the CropRegion interface of types.ts: a percentage-space
rectangle attached to a Layer or Group. -/
structure CropRegion where
  id : String
  x : ℚ
  y : ℚ
  width : ℚ
  height : ℚ
  isLocked : Bool
  replacementSrc : Option String
  isStitched : Bool
  deriving DecidableEq, Repr

instance : Inhabited CropRegion :=
  ⟨⟨"", 0, 0, 0, 0, false, none, false⟩⟩

/-- The documented region invariant (spec section 3): the rectangle lies
inside the [0,100] percentage box and is at least 1% in each dimension. -/
def RegionInvariant (c : CropRegion) : Prop :=
  0 ≤ c.x ∧ 0 ≤ c.y ∧ c.x + c.width ≤ 100 ∧ c.y + c.height ≤ 100 ∧
    1 ≤ c.width ∧ 1 ≤ c.height

instance (c : CropRegion) : Decidable (RegionInvariant c) := by
  unfold RegionInvariant; infer_instance

/-- Mirrors the InteractionMode union type of ImageCropper. -/
inductive InteractionMode where
  | create
  | move
  | resizeNW
  | resizeNE
  | resizeSW
  | resizeSE
  deriving DecidableEq, Repr

/-- Mirrors the interaction React state of ImageCropper: the mode, the
pointer-down position in percentage coordinates, and (for move/resize)
the snapshot of the region plus its id. -/
structure Interaction where
  mode : InteractionMode
  startX : ℚ
  startY : ℚ
  initialCrop : Option CropRegion := none
  activeId : Option String := none
  deriving DecidableEq, Repr

/-- The move/resize branch of handleWindowMouseMove in ImageCropper:
given the snapshot `init` and the pointer displacement (dx, dy) from the
pointer-down position, produce the new ephemeral rectangle.  The
`create` case is never reached through this branch (creation only
updates the visual tempSelection); it returns the snapshot unchanged. -/
def applyMove (mode : InteractionMode) (init : CropRegion) (dx dy : ℚ) :
    CropRegion :=
  match mode with
  | .create => init
  | .move =>
      { init with
          x := min (max 0 (init.x + dx)) (100 - init.width)
          y := min (max 0 (init.y + dy)) (100 - init.height) }
  | .resizeSE =>
      { init with
          width := max 1 (min (init.width + dx) (100 - init.x))
          height := max 1 (min (init.height + dy) (100 - init.y)) }
  | .resizeSW =>
      let proposedX := min (init.x + dx) (init.x + init.width - 1)
      let newX := max 0 proposedX
      { init with
          x := newX
          width := init.width + (init.x - newX)
          height := max 1 (min (init.height + dy) (100 - init.y)) }
  | .resizeNE =>
      let proposedY := min (init.y + dy) (init.y + init.height - 1)
      let newY := max 0 proposedY
      { init with
          y := newY
          height := init.height + (init.y - newY)
          width := max 1 (min (init.width + dx) (100 - init.x)) }
  | .resizeNW =>
      let proposedX := min (init.x + dx) (init.x + init.width - 1)
      let proposedY := min (init.y + dy) (init.y + init.height - 1)
      let newX := max 0 proposedX
      let newY := max 0 proposedY
      { init with
          x := newX
          y := newY
          width := init.width + (init.x - newX)
          height := init.height + (init.y - newY) }

/-- Mirrors handleWindowMouseMove of ImageCropper restricted to the
state it writes for commit purposes: for the modification modes it
returns the new optimisticCrop; in create mode (or when the snapshot or
id is missing, matching the early return) it writes no optimistic
crop. -/
def handleWindowMouseMove (i : Interaction) (posX posY : ℚ) :
    Option CropRegion :=
  match i.mode with
  | .create => none
  | m =>
      match i.initialCrop, i.activeId with
      | some init, some _ =>
          some (applyMove m init (posX - i.startX) (posY - i.startY))
      | _, _ => none

/-- Mirrors handleWindowMouseUp of ImageCropper: in create mode the
rectangle spanned by the pointer-down and pointer-up positions is
appended (unlocked, no replacement, not stitched) when both sides
exceed 1%; otherwise the final optimisticCrop replaces the crop with
the active id.  A `none` interaction mirrors the null guard. -/
def handleWindowMouseUp (i : Option Interaction)
    (optimisticCrop : Option CropRegion) (posX posY : ℚ) (freshId : String)
    (crops : List CropRegion) : List CropRegion :=
  match i with
  | none => crops
  | some i =>
      match i.mode with
      | .create =>
          let x := min i.startX posX
          let y := min i.startY posY
          let width := |posX - i.startX|
          let height := |posY - i.startY|
          if 1 < width ∧ 1 < height then
            crops ++ [⟨freshId, x, y, width, height, false, none, false⟩]
          else
            crops
      | _ =>
          match optimisticCrop, i.activeId with
          | some finalCrop, some activeId =>
              crops.map fun c => if c.id = activeId then finalCrop else c
          | _, _ => crops

/-- The pieces of component state written by a pointer-down on a crop
body (handleCropMouseDown). -/
structure DownResult where
  activeCropId : Option String
  interaction : Option Interaction
  optimisticCrop : Option CropRegion
  deriving DecidableEq, Repr

/-- Mirrors handleCropMouseDown of ImageCropper: the crop is always
activated; when it is locked the handler returns before establishing
any interaction or optimistic crop. -/
def handleCropMouseDown (crop : CropRegion) (posX posY : ℚ) : DownResult :=
  if crop.isLocked then
    { activeCropId := some crop.id, interaction := none,
      optimisticCrop := none }
  else
    { activeCropId := some crop.id
      interaction := some
        { mode := .move, startX := posX, startY := posY,
          initialCrop := some crop, activeId := some crop.id }
      optimisticCrop := some crop }

/-- Mirrors handleDeleteCrop of ImageCropper (the crops update only). -/
def handleDeleteCrop (crops : List CropRegion) (cropId : String) :
    List CropRegion :=
  crops.filter fun c => c.id ≠ cropId

/-- Mirrors the Delete/Backspace key handler of ImageCropper: the crop
with the active id is looked up and deleted only when it exists and is
not locked. -/
def handleKeyDown (activeCropId : Option String)
    (crops : List CropRegion) : List CropRegion :=
  match activeCropId with
  | none => crops
  | some aid =>
      match crops.find? (fun c => c.id = aid) with
      | some crop => if ¬ crop.isLocked then handleDeleteCrop crops aid
                     else crops
      | none => crops

/-- Mirrors the ImageLayer interface of types.ts.  The raster source is
kept as an opaque string (a data URL in the source). -/
structure ImageLayer where
  id : String
  groupId : Option String := none
  name : String
  src : String
  width : ℚ
  height : ℚ
  crops : List CropRegion
  deriving DecidableEq, Repr

/-- Mirrors the AssetGroup interface of types.ts. -/
structure AssetGroup where
  id : String
  name : String
  layerIds : List String
  crops : List CropRegion
  parentGroupId : Option String := none
  deriving DecidableEq, Repr

/-- Mirrors the StitchItem interface of types.ts: a non-owning
reference into an owner's crop list.  The layerId field can hold a
Layer id or a Group id. -/
structure StitchItem where
  id : String
  layerId : String
  cropId : String
  deriving DecidableEq, Repr

/-- The three global data stores of App.tsx. -/
structure AppState where
  layers : List ImageLayer
  groups : List AssetGroup
  stitchItems : List StitchItem
  deriving DecidableEq, Repr

/-- Mirrors createGroupFromLayers of App.tsx: appends a new group whose
member list is exactly the given ids and points every layer whose id is
among them at the new group.  The fresh uuid is passed in explicitly
(crypto.randomUUID is impure); the name counter copies the source. -/
def createGroupFromLayers (freshId : String) (layers : List ImageLayer)
    (groups : List AssetGroup) (layerIds : List String) :
    List ImageLayer × List AssetGroup :=
  let newGroup : AssetGroup :=
    { id := freshId, name := "Group " ++ toString (groups.length + 1),
      layerIds := layerIds, crops := [] }
  (layers.map fun l =>
      if layerIds.contains l.id then { l with groupId := some newGroup.id }
      else l,
    groups ++ [newGroup])

/-- Mirrors handleCreateGroup of App.tsx: the selected, ungrouped
layers are collected in layer-list order; with fewer than two of them
the handler returns without touching any store. -/
def handleCreateGroup (freshId : String) (selectedLibraryIds : List String)
    (layers : List ImageLayer) (groups : List AssetGroup) :
    List ImageLayer × List AssetGroup :=
  let selectedLayers :=
    layers.filter fun l => selectedLibraryIds.contains l.id ∧ l.groupId = none
  if selectedLayers.length < 2 then (layers, groups)
  else createGroupFromLayers freshId layers groups
    (selectedLayers.map fun l => l.id)

/-- Mirrors the recursive getSubGroups helper inside handleDeleteItem of
App.tsx: the group id itself followed by the recursively collected
subtrees of every group whose parentGroupId is this id.  The source
recursion is unbounded (the group forest is acyclic by construction);
the embedding adds explicit fuel, which exhausts only on parent cycles
longer than the fuel. -/
def getSubGroups (groups : List AssetGroup) : Nat → String → List String
  | 0, pId => [pId]
  | fuel + 1, pId =>
      pId :: (((groups.filter fun g => g.parentGroupId = some pId).map
        fun g => g.id).flatMap (getSubGroups groups fuel))

/-- Mirrors the group branch of handleDeleteItem of App.tsx: collect the
group and all descendant groups, collect every layer id referenced by
any of them, drop those groups and layers, and clear the active
selection when it pointed into the deleted subtree.  Fuel for the
recursive collection is the number of groups, enough for any acyclic
parent chain. -/
def handleDeleteItemGroup (id : String) (layers : List ImageLayer)
    (groups : List AssetGroup) (activeAssetId : Option String) :
    List ImageLayer × List AssetGroup × Option String :=
  let allGroupIds := getSubGroups groups groups.length id
  let allLayerIds :=
    (groups.filter fun g => allGroupIds.contains g.id).flatMap
      fun g => g.layerIds
  let newGroups := groups.filter fun g => ¬ allGroupIds.contains g.id
  let newLayers := layers.filter fun l => ¬ allLayerIds.contains l.id
  let newActive :=
    match activeAssetId with
    | some a => if allGroupIds.contains a ∨ allLayerIds.contains a then none
                else some a
    | none => none
  (newLayers, newGroups, newActive)

/-- Mirrors handleAddToStitch of App.tsx: if the id matches a layer,
that layer's crop with the given id (when present) is flagged
isStitched and a queue item is appended; otherwise, if it matches a
group, the same happens on the group; otherwise nothing changes.  The
fresh uuid for the queue item is passed in explicitly. -/
def handleAddToStitch (freshId : String) (st : AppState)
    (layerId cropId : String) : AppState :=
  let found := st.layers.any fun l => l.id = layerId
  if found then
    { st with
        layers := st.layers.map fun l =>
          if l.id ≠ layerId then l
          else { l with crops := l.crops.map fun c =>
                   if c.id = cropId then { c with isStitched := true } else c }
        stitchItems := st.stitchItems ++
          [{ id := freshId, layerId := layerId, cropId := cropId }] }
  else if st.groups.any fun g => g.id = layerId then
    { st with
        groups := st.groups.map fun g =>
          if g.id ≠ layerId then g
          else { g with crops := g.crops.map fun c =>
                   if c.id = cropId then { c with isStitched := true } else c }
        stitchItems := st.stitchItems ++
          [{ id := freshId, layerId := layerId, cropId := cropId }] }
  else st

/-- JavaScript splice-style insertion: Array.prototype.splice(i, 0, a)
clamps the index to the array length, so an out-of-range index
appends. -/
def spliceInsert (l : List α) (i : Nat) (a : α) : List α :=
  l.take i ++ a :: l.drop i

/-- JavaScript splice-style removal of one element: splice(i, 1)
removes nothing when the index is at or past the end. -/
def spliceRemove (l : List α) (i : Nat) : List α :=
  l.take i ++ l.drop (i + 1)

/-- Mirrors handleReorder of StitchView: remove the element at `fromIdx`
and re-insert it at `toIdx`.  For `fromIdx` past the end the source
would splice out nothing and insert `undefined`, which has no typed
counterpart; the embedding leaves the list unchanged there (the drag
handlers only ever pass live indices). -/
def handleReorder (items : List α) (fromIdx toIdx : Nat) : List α :=
  match items.get? fromIdx with
  | none => items
  | some moved => spliceInsert (spliceRemove items fromIdx) toIdx moved

/-- Direction argument of handleMoveItem. -/
inductive MoveDir where
  | left
  | right
  deriving DecidableEq, Repr

/-- Mirrors handleMoveItem of StitchView: swap the item with its left or
right neighbour, returning the list unchanged when the target index
falls outside the list.  An `index` past the end with an in-range
target would build a sparse array in the source and has no typed
counterpart; the embedding leaves the list unchanged there (the UI only
calls with live indices). -/
def handleMoveItem (items : List α) (index : Nat) (dir : MoveDir) :
    List α :=
  let targetIndex : Int :=
    match dir with
    | .left => (index : Int) - 1
    | .right => (index : Int) + 1
  if targetIndex < 0 ∨ (items.length : Int) ≤ targetIndex then items
  else
    let t := targetIndex.toNat
    if ht : t < items.length then
      if hi : index < items.length then
        (items.set index (items.get ⟨t, ht⟩)).set t (items.get ⟨index, hi⟩)
      else items
    else items

/-- Mirrors handleReorderGroup of App.tsx: the same splice-based move
applied to the member list of the named group.  As in the source, every
other group is returned unchanged. -/
def handleReorderGroup (groups : List AssetGroup) (groupId : String)
    (fromIndex toIndex : Nat) : List AssetGroup :=
  groups.map fun g =>
    if g.id ≠ groupId then g
    else { g with layerIds := handleReorder g.layerIds fromIndex toIndex }

/-- Mirrors the SmartStitchImage record used by generateSmartStitch:
an uploaded image with its decoded pixel dimensions (file payload and
data URL are opaque here). -/
structure SmartStitchImage where
  id : String
  dataUrl : String
  width : ℚ
  height : ℚ
  deriving DecidableEq, Repr

/-- One entry of a row under construction in generateSmartStitch; the
`aspect` field is the aspectRatio of the source. -/
structure RowEntry where
  img : SmartStitchImage
  aspect : ℚ
  scaledWidth : ℚ
  deriving DecidableEq, Repr

/-- The numeric settings of generateSmartStitch (backgroundColor only
affects the pixel fill, not the geometry, and is omitted). -/
structure StitchSettings where
  containerWidth : ℚ
  targetRowHeight : ℚ
  spacing : ℚ
  deriving DecidableEq, Repr

/-- One item of the computed layout (SmartStitchLayoutItem). -/
structure SmartStitchLayoutItem where
  img : SmartStitchImage
  x : ℚ
  y : ℚ
  width : ℚ
  height : ℚ
  deriving DecidableEq, Repr

/-- Mirrors the row-building loop of generateSmartStitch: each image is
pushed onto the current row with its provisional width at the target
row height; the row closes as soon as the accumulated width plus
inter-item spacing reaches the container width; a non-empty trailing
row is pushed at the end. -/
def buildRows (s : StitchSettings) :
    List SmartStitchImage → List RowEntry → ℚ → List (List RowEntry)
  | [], currentRow, _ =>
      if currentRow.length > 0 then [currentRow] else []
  | image :: rest, currentRow, currentWidth =>
      let aspect := image.width / image.height
      let scaledWidth := s.targetRowHeight * aspect
      let row := currentRow ++ [⟨image, aspect, scaledWidth⟩]
      let cw := currentWidth + scaledWidth
      let totalWidthWithSpacing := cw + ((row.length : ℚ) - 1) * s.spacing
      if s.containerWidth ≤ totalWidthWithSpacing then
        row :: buildRows s rest [] 0
      else
        buildRows s rest row cw

/-- The sum of the aspect ratios of a row (rowAspectRatio in the
source's reduce). -/
def rowAspectSum (row : List RowEntry) : ℚ :=
  (row.map fun e => e.aspect).sum

/-- The width left for images after the two outer margins and the
inter-item gaps (availableWidth in the source). -/
def availableWidthFor (s : StitchSettings) (row : List RowEntry) : ℚ :=
  s.containerWidth - s.spacing * 2 - ((row.length : ℚ) - 1) * s.spacing

/-- Mirrors the row-height choice of generateSmartStitch: a last row
whose aggregate aspect ratio is below 0.6 of availableWidth over
targetRowHeight keeps the target height; every other row is scaled so
its images exactly fill the available width. -/
def rowHeightFor (s : StitchSettings) (isLastRow : Bool)
    (row : List RowEntry) : ℚ :=
  if isLastRow ∧ 0 < row.length ∧
      rowAspectSum row < availableWidthFor s row / s.targetRowHeight * (3 / 5)
  then s.targetRowHeight
  else availableWidthFor s row / rowAspectSum row

/-- The inner x-placement loop of generateSmartStitch: items are laid
left to right starting at the given x, each advancing by its final
width plus the spacing. -/
def rowItemsFrom (s : StitchSettings) (rowHeight y : ℚ) :
    List RowEntry → ℚ → List SmartStitchLayoutItem
  | [], _ => []
  | e :: rest, x =>
      let width := rowHeight * e.aspect
      ⟨e.img, x, y, width, rowHeight⟩ ::
        rowItemsFrom s rowHeight y rest (x + width + s.spacing)

/-- The outer row loop of generateSmartStitch: rows are stacked from
the initial y, each advancing y by its height plus the spacing; the
final y is the totalHeight of the canvas.  The last-row test of the
source (i = rows.length − 1) becomes emptiness of the remaining
rows. -/
def layoutRows (s : StitchSettings) :
    List (List RowEntry) → ℚ → List SmartStitchLayoutItem × ℚ
  | [], y => ([], y)
  | row :: rest, y =>
      let isLastRow := rest.isEmpty
      let rowHeight := rowHeightFor s isLastRow row
      let items := rowItemsFrom s rowHeight y row s.spacing
      let tail := layoutRows s rest (y + rowHeight + s.spacing)
      (items ++ tail.1, tail.2)

/-- The geometric part of generateSmartStitch of utils: the computed
layout items and the computed totalHeight (y after the loop, starting
at spacing).  The drawing canvas takes width = containerWidth and
height = totalHeight; the empty-input early return yields an empty
layout.  (The DOM canvas setter truncates the height to an integer;
the model keeps the computed rational.) -/
def generateSmartStitch (images : List SmartStitchImage)
    (s : StitchSettings) : List SmartStitchLayoutItem × ℚ :=
  let rows := buildRows s images [] 0
  layoutRows s rows s.spacing

/-- A decoded raster source as seen by generateStitchedCanvas: only its
pixel dimensions matter for the geometry. -/
structure LoadedImage where
  width : ℚ
  height : ℚ
  deriving DecidableEq, Repr

/-- One drawImage call of generateStitchedCanvas: destination rectangle
on the output canvas. -/
structure DrawCommand where
  x : ℚ
  y : ℚ
  width : ℚ
  height : ℚ
  deriving DecidableEq, Repr

/-- The output canvas of generateStitchedCanvas: integer dimensions and
the ordered list of draw commands. -/
structure StitchedCanvas where
  width : ℤ
  height : ℤ
  draws : List DrawCommand
  deriving DecidableEq, Repr

/-- Computable ceiling on ℚ, mirroring Math.ceil:
qceil q = −⌊−q⌋ through floor division of the numerator. -/
def qceil (q : ℚ) : ℤ :=
  -((-q).num.fdiv ((-q).den : ℤ))

/-- Mirrors generateStitchedCanvas of utils/imageUtils.ts on decoded
dimensions: target height is the maximum of all source heights
(Math.max over the list); each source is scaled to that height
preserving aspect ratio, total width accumulated by the same fold as
the source; the canvas takes the ceilings and the sources are drawn
left to right at the accumulated x.  Empty input returns none (the
source returns an empty string). -/
def generateStitchedCanvas (items : List LoadedImage) :
    Option StitchedCanvas :=
  if items.isEmpty then none
  else
    let maxHeight := ((items.map fun i => i.height).max?).getD 0
    let acc := items.foldl
      (fun (acc : ℚ × List (ℚ × ℚ)) img =>
        let aspect := img.width / img.height
        let newWidth := aspect * maxHeight
        (acc.1 + newWidth, acc.2 ++ [(newWidth, maxHeight)]))
      (0, [])
    let totalWidth := acc.1
    let dims := acc.2
    let drawAcc := dims.foldl
      (fun (a : ℚ × List DrawCommand) dim =>
        (a.1 + dim.1, a.2 ++ [⟨a.1, 0, dim.1, dim.2⟩]))
      (0, [])
    some ⟨qceil totalWidth, qceil maxHeight, drawAcc.2⟩

/-- The corner diagonally opposite the dragged handle, as a property of
the snapshot and the updated rectangle. -/
def oppositeCornerFixed (mode : InteractionMode) (init c : CropRegion) :
    Prop :=
  match mode with
  | .resizeSE => c.x = init.x ∧ c.y = init.y
  | .resizeSW => c.x + c.width = init.x + init.width ∧ c.y = init.y
  | .resizeNE => c.x = init.x ∧ c.y + c.height = init.y + init.height
  | .resizeNW => c.x + c.width = init.x + init.width ∧
      c.y + c.height = init.y + init.height
  | _ => True

/-- A concrete locked crop used by the locked-region witness. -/
def lockedCrop : CropRegion := ⟨"locked", 10, 10, 20, 20, true, none, false⟩

/-- A concrete unlocked crop used by the locked-region witness. -/
def otherCrop : CropRegion := ⟨"other", 40, 40, 10, 10, false, none, false⟩

/-- The crop-level relation used to describe the enqueue flagging: the
crop carrying the queued region id gets isStitched set, every other
crop is untouched. -/
def FlagsCrop (regionId : String) (c c' : CropRegion) : Prop :=
  (c.id ≠ regionId → c' = c) ∧
  (c.id = regionId → c' = { c with isStitched := true })

/-- The layer-level relation used to describe the enqueue flagging:
layers other than the owner are untouched; the owner keeps every field
except that its crops are flagged per FlagsCrop. -/
def FlagsOwnerLayer (ownerId regionId : String)
    (l l' : ImageLayer) : Prop :=
  (l.id ≠ ownerId → l' = l) ∧
  (l.id = ownerId →
     l'.id = l.id ∧ l'.groupId = l.groupId ∧ l'.name = l.name ∧
     l'.src = l.src ∧ l'.width = l.width ∧ l'.height = l.height ∧
     List.Forall₂ (FlagsCrop regionId) l.crops l'.crops)

/-- The group-level analogue of FlagsOwnerLayer. -/
def FlagsOwnerGroup (ownerId regionId : String)
    (g g' : AssetGroup) : Prop :=
  (g.id ≠ ownerId → g' = g) ∧
  (g.id = ownerId →
     g'.id = g.id ∧ g'.name = g.name ∧ g'.layerIds = g.layerIds ∧
     g'.parentGroupId = g.parentGroupId ∧
     List.Forall₂ (FlagsCrop regionId) g.crops g'.crops)

/-- A concrete layer with no crops at all, so no region id resolves in
it. -/
def emptyCropLayer : ImageLayer := ⟨"L1", none, "layer one", "src1", 10, 10, []⟩

/-- A concrete app state holding only emptyCropLayer and an empty
queue. -/
def missingRegionState : AppState := ⟨[emptyCropLayer], [], []⟩

/-- A concrete crop for the enqueue witness. -/
def queuedCrop : CropRegion := ⟨"c1", 0, 0, 10, 10, false, none, false⟩

/-- A concrete layer owning queuedCrop. -/
def queuedLayer : ImageLayer :=
  ⟨"L1", none, "layer one", "src1", 10, 10, [queuedCrop]⟩

/-- A concrete app state for the enqueue witness. -/
def queuedState : AppState := ⟨[queuedLayer], [], []⟩

/-- A concrete ungrouped layer used by the grouping witness. -/
def groupLayerA : ImageLayer := ⟨"A", none, "a", "srcA", 5, 5, []⟩

/-- Another concrete ungrouped layer used by the grouping witness. -/
def groupLayerB : ImageLayer := ⟨"B", none, "b", "srcB", 5, 5, []⟩

/-- The three images of the spec's worked example: aspect ratios 2.0,
1.0 and 1.5 (realised as 600×300, 300×300 and 450×300). -/
def exampleImages : List SmartStitchImage :=
  [⟨"a", "u1", 600, 300⟩, ⟨"b", "u2", 300, 300⟩, ⟨"c", "u3", 450, 300⟩]

/-- The worked example's settings: containerWidth 1200, targetRowHeight
300, spacing 12. -/
def exampleSettings : StitchSettings := ⟨1200, 300, 12⟩

/-- The single row the packer produces on the example: provisional
widths 600, 300 and 450 at the target height. -/
def exampleRow : List RowEntry :=
  [⟨⟨"a", "u1", 600, 300⟩, 2, 600⟩, ⟨⟨"b", "u2", 300, 300⟩, 1, 300⟩,
   ⟨⟨"c", "u3", 450, 300⟩, 3 / 2, 450⟩]

/-- The target height of generateStitchedCanvas: Math.max over the
decoded heights (0 when the list is empty, a case the caller rules
out). -/
def maxHeightOf (items : List LoadedImage) : ℚ :=
  ((items.map fun i => i.height).max?).getD 0

/-- The scaled width of every source at the target height, in input
order. -/
def scaledWidthsOf (items : List LoadedImage) : List ℚ :=
  items.map fun i => i.width / i.height * maxHeightOf items

/-- The draw list the claim describes: the k-th source is drawn at
x = sum of the previous scaled widths, y = 0, with its scaled width and
the common target height. -/
def stitchDrawList (items : List LoadedImage) : List DrawCommand :=
  (List.range items.length).map fun k =>
    ⟨((scaledWidthsOf items).take k).sum, 0,
      (scaledWidthsOf items).getD k 0, maxHeightOf items⟩

/-- Left-to-right draw placement: each rectangle starts where the
previous one ended. -/
def drawsFrom (x0 : ℚ) : List (ℚ × ℚ) → List DrawCommand
  | [] => []
  | d :: rest => ⟨x0, 0, d.1, d.2⟩ :: drawsFrom (x0 + d.1) rest

/-- The heights the outer loop assigns to the rows, in order (the last
row is the one with an empty remainder). -/
def rowHeightsList (s : StitchSettings) :
    List (List RowEntry) → List ℚ
  | [] => []
  | row :: rest => rowHeightFor s rest.isEmpty row :: rowHeightsList s rest

/-- A parentGroupId chain of length n descending from ancestor a to c:
each step passes through a group of the store whose parentGroupId is
the previous node. -/
inductive SubChain (groups : List AssetGroup) :
    Nat → String → String → Prop where
  | refl (a : String) : SubChain groups 0 a a
  | step {n : Nat} {a c : String} (g : AssetGroup) (hg : g ∈ groups)
      (hp : g.parentGroupId = some a) (h : SubChain groups n g.id c) :
      SubChain groups (n + 1) a c

/-- Root group of the deletion witness, owning layer l1. -/
def wG : AssetGroup := ⟨"G", "G", ["l1"], [], none⟩

/-- First nested subgroup of the deletion witness, owning layer l2. -/
def wS1 : AssetGroup := ⟨"S1", "S1", ["l2"], [], some "G"⟩

/-- Second nested subgroup (child of wS1), owning layer l3. -/
def wS2 : AssetGroup := ⟨"S2", "S2", ["l3"], [], some "S1"⟩

/-- The group store of the deletion witness. -/
def wGroups : List AssetGroup := [wG, wS1, wS2]

/-- The layer store of the deletion witness: one layer per group. -/
def wLayers : List ImageLayer :=
  [⟨"l1", some "G", "l1", "s", 1, 1, []⟩,
   ⟨"l2", some "S1", "l2", "s", 1, 1, []⟩,
   ⟨"l3", some "S2", "l3", "s", 1, 1, []⟩]

/-- C7: for a resize gesture from any of the four corner handles, every
ephemeral rectangle produced by a pointer-move keeps the corner
diagonally opposite the dragged handle exactly where the pointer-down
snapshot had it, and the rectangle committed on pointer-up (the final
ephemeral rectangle, written back over the active id) therefore
satisfies the same corner equation; over ℚ the equality is exact. -/
theorem resize_preserves_opposite_corner (mode : InteractionMode)
    (hmode : mode = .resizeSE ∨ mode = .resizeSW ∨ mode = .resizeNE ∨
      mode = .resizeNW)
    (init : CropRegion) (startX startY : ℚ) (aid : String) :
    (∀ posX posY c,
       handleWindowMouseMove ⟨mode, startX, startY, some init, some aid⟩
           posX posY = some c →
       oppositeCornerFixed mode init c) ∧
    (∀ (finalCrop : CropRegion) (upX upY : ℚ) (fid : String)
       (crops : List CropRegion),
       oppositeCornerFixed mode init finalCrop →
       ∀ c ∈ handleWindowMouseUp
           (some ⟨mode, startX, startY, some init, some aid⟩)
           (some finalCrop) upX upY fid crops,
         c ∈ crops ∨ oppositeCornerFixed mode init c) := by
  constructor
  · intro posX posY c hc
    rcases hmode with h | h | h | h <;> subst h <;>
      simp only [handleWindowMouseMove] at hc <;>
      cases hc <;> simp only [oppositeCornerFixed, applyMove] <;>
      constructor <;> ring_nf
  · intro finalCrop upX upY fid crops hfc c hc
    rcases hmode with h | h | h | h <;> subst h <;>
      simp only [handleWindowMouseUp] at hc <;>
      rcases List.mem_map.mp hc with ⟨orig, horig, heq⟩ <;>
      by_cases hid : orig.id = aid <;>
      simp [hid] at heq <;> subst heq
    all_goals first
      | exact Or.inr hfc
      | exact Or.inl horig

/-- C8: a locked region is never moved, resized or deleted by the
interaction machine.  A pointer-down on a locked crop only activates it
(no interaction, no optimistic crop, so the window move/up handlers
have nothing to commit: with a null interaction the pointer-up leaves
the crop list untouched), and the Delete/Backspace handler leaves the
crop list unchanged whenever every crop carrying the active id is
locked. -/
theorem locked_region_is_immutable (crop : CropRegion)
    (hlock : crop.isLocked = true) (posX posY : ℚ) :
    handleCropMouseDown crop posX posY =
      ⟨some crop.id, none, none⟩ ∧
    (∀ (upX upY : ℚ) (fid : String) (crops : List CropRegion)
       (opt : Option CropRegion),
       handleWindowMouseUp none opt upX upY fid crops = crops) ∧
    (∀ crops : List CropRegion,
       (∀ c ∈ crops, c.id = crop.id → c.isLocked = true) →
       handleKeyDown (some crop.id) crops = crops) := by
  refine ⟨by simp [handleCropMouseDown, hlock], fun _ _ _ _ _ => rfl, ?_⟩
  intro crops hall
  cases hfind : crops.find? (fun c => c.id = crop.id) with
  | none => simp [handleKeyDown, hfind]
  | some c =>
      have hmem : c ∈ crops := List.mem_of_find?_eq_some hfind
      have hid : c.id = crop.id := by
        have := List.find?_some hfind
        simpa using this
      simp [handleKeyDown, hfind, hall c hmem hid]

/-- Witness for the locked-region theorem: a concrete locked crop with
another unlocked crop sharing the list; the key handler leaves the list
unchanged. -/
theorem locked_region_is_immutable_witness :
    (lockedCrop.isLocked = true ∧
      (∀ c ∈ [lockedCrop, otherCrop], c.id = lockedCrop.id →
        c.isLocked = true)) ∧
    handleCropMouseDown lockedCrop 5 5 =
      ⟨some lockedCrop.id, none, none⟩ ∧
    handleKeyDown (some lockedCrop.id) [lockedCrop, otherCrop] =
      [lockedCrop, otherCrop] :=
  ⟨⟨rfl, by decide⟩,
    (locked_region_is_immutable lockedCrop rfl 5 5).1,
    (locked_region_is_immutable lockedCrop rfl 5 5).2.2
      [lockedCrop, otherCrop] (by decide)⟩

/-- Witness for the resize theorem: the south-east handle on a concrete
crop, with a concrete pointer-move and a commit over a one-element crop
list. -/
theorem resize_preserves_opposite_corner_witness :
    oppositeCornerFixed .resizeSE otherCrop
      (applyMove .resizeSE otherCrop 25 30) ∧
    ∀ c ∈ handleWindowMouseUp
        (some ⟨.resizeSE, 10, 10, some otherCrop, some "other"⟩)
        (some (applyMove .resizeSE otherCrop 25 30)) 35 40 "fresh"
        [lockedCrop],
      c ∈ [lockedCrop] ∨ oppositeCornerFixed .resizeSE otherCrop c := by
  have h := resize_preserves_opposite_corner .resizeSE (Or.inl rfl)
    otherCrop 10 10 "other"
  have hfc : oppositeCornerFixed .resizeSE otherCrop
      (applyMove .resizeSE otherCrop 25 30) :=
    h.1 35 40 _ (by norm_num [handleWindowMouseMove])
  exact ⟨hfc, h.2 _ 35 40 "fresh" [lockedCrop] hfc⟩

/-- Moving the element at position m to the front while overwriting its
slot with x is a permutation of consing x instead. -/
lemma get_cons_set_perm (t : List α) (m : Nat) (hm : m < t.length)
    (x : α) : (t.get ⟨m, hm⟩ :: t.set m x).Perm (x :: t) := by
  induction t generalizing m with
  | nil => simp at hm
  | cons y u ih =>
      cases m with
      | zero => simpa using List.Perm.swap x y u
      | succ n =>
          have hn : n < u.length := by simpa using hm
          have h1 : (u.get ⟨n, hn⟩ :: y :: u.set n x).Perm
              (y :: u.get ⟨n, hn⟩ :: u.set n x) :=
            List.Perm.swap y (u.get ⟨n, hn⟩) _
          have h2 : (y :: u.get ⟨n, hn⟩ :: u.set n x).Perm (y :: x :: u) :=
            (ih n hn).cons y
          have h3 : (y :: x :: u).Perm (x :: y :: u) := List.Perm.swap x y u
          simpa using (h1.trans h2).trans h3

/-- Swapping the entries at two positions via two writes is a
permutation. -/
lemma set_set_perm (l : List α) (i j : Nat) (hi : i < l.length)
    (hj : j < l.length) :
    ((l.set i (l.get ⟨j, hj⟩)).set j (l.get ⟨i, hi⟩)).Perm l := by
  induction l generalizing i j with
  | nil => simp at hi
  | cons x t ih =>
      cases i with
      | zero =>
          cases j with
          | zero => simp
          | succ k =>
              have hk : k < t.length := by simpa using hj
              simpa using get_cons_set_perm t k hk x
      | succ m =>
          cases j with
          | zero =>
              have hm : m < t.length := by simpa using hi
              simpa using get_cons_set_perm t m hm x
          | succ k =>
              have hm : m < t.length := by simpa using hi
              have hk : k < t.length := by simpa using hj
              simpa using (ih m k hm hk).cons x

/-- Splice-style insertion permutes to consing the element. -/
lemma spliceInsert_perm (l : List α) (i : Nat) (a : α) :
    (spliceInsert l i a).Perm (a :: l) := by
  unfold spliceInsert
  have h : (l.take i ++ a :: l.drop i).Perm (a :: (l.take i ++ l.drop i)) :=
    List.perm_middle
  rwa [List.take_append_drop] at h

/-- Splice-style removal of an in-range element permutes the list to
the removed element consed on the remainder. -/
lemma spliceRemove_perm (l : List α) (i : Nat) (h : i < l.length) :
    l.Perm (l.get ⟨i, h⟩ :: spliceRemove l i) := by
  unfold spliceRemove
  conv_lhs => rw [← List.take_append_drop i l, List.drop_eq_getElem_cons h]
  exact List.perm_middle

/-- handleReorder always returns a permutation of its input. -/
lemma handleReorder_perm (items : List α) (f t : Nat) :
    (handleReorder items f t).Perm items := by
  unfold handleReorder
  cases hg : items.get? f with
  | none => exact List.Perm.refl _
  | some moved =>
      rcases List.get?_eq_some.mp hg with ⟨hf, hget⟩
      have h1 : (spliceInsert (spliceRemove items f) t moved).Perm
          (moved :: spliceRemove items f) := spliceInsert_perm _ _ _
      have h2 : (moved :: spliceRemove items f).Perm items := by
        rw [← hget]
        exact (spliceRemove_perm items f hf).symm
      exact h1.trans h2

/-- handleMoveItem always returns a permutation of its input. -/
lemma handleMoveItem_perm (items : List α) (index : Nat) (dir : MoveDir) :
    (handleMoveItem items index dir).Perm items := by
  simp only [handleMoveItem]
  split
  · exact List.Perm.refl _
  · split
    · split
      · exact set_set_perm items index _ _ _
      · exact List.Perm.refl _
    · exact List.Perm.refl _

/-- C10: every reorder operation is a permutation of its input list —
the splice-based move of the stitch queue (handleReorder), the adjacent
swap of the stitch queue (handleMoveItem), and the group-member move
(handleReorderGroup), which leaves every group's identity and other
fields untouched and permutes only the named group's member list.
Additionally handleMoveItem at index 0 with direction left, or at the
last index with direction right, returns the queue unchanged. -/
theorem reorder_operations_are_permutations :
    (∀ (items : List StitchItem) (fromIdx toIdx : Nat),
        (handleReorder items fromIdx toIdx).Perm items) ∧
    (∀ (items : List StitchItem) (index : Nat) (dir : MoveDir),
        (handleMoveItem items index dir).Perm items) ∧
    (∀ items : List StitchItem, handleMoveItem items 0 .left = items) ∧
    (∀ items : List StitchItem,
        handleMoveItem items (items.length - 1) .right = items) ∧
    (∀ (groups : List AssetGroup) (groupId : String)
        (fromIndex toIndex : Nat),
        List.Forall₂ (fun g g' : AssetGroup =>
            g'.id = g.id ∧ g'.name = g.name ∧ g'.crops = g.crops ∧
            g'.parentGroupId = g.parentGroupId ∧
            g'.layerIds.Perm g.layerIds)
          groups (handleReorderGroup groups groupId fromIndex toIndex)) := by
  refine ⟨handleReorder_perm, handleMoveItem_perm, ?_, ?_, ?_⟩
  · intro items
    simp [handleMoveItem]
  · intro items
    simp only [handleMoveItem]
    rw [if_pos]
    omega
  · intro groups groupId fromIndex toIndex
    unfold handleReorderGroup
    induction groups with
    | nil => exact List.Forall₂.nil
    | cons g gs ih =>
        simp only [List.map_cons]
        refine List.Forall₂.cons ?_ ih
        by_cases h : g.id = groupId
        · simp only [ne_eq, h, not_true_eq_false, if_false]
          refine ⟨?_, ?_, ?_, ?_, ?_⟩ <;>
            first
              | trivial
              | exact handleReorder_perm _ _ _
        · simp only [ne_eq, h, not_false_eq_true, if_true]
          refine ⟨?_, ?_, ?_, ?_, ?_⟩ <;> trivial

/-- Pointwise description of a map as a Forall₂ relation. -/
lemma forall₂_map_self {α β : Type _} (R : α → β → Prop) (f : α → β)
    (l : List α) (h : ∀ a ∈ l, R a (f a)) : List.Forall₂ R l (l.map f) := by
  rw [List.forall₂_map_right_iff]
  exact List.forall₂_same.mpr h

/-- C2 (amended): handleAddToStitch appends exactly one queue item for
(ownerId, regionId) whenever ownerId resolves to a layer or (failing
that) to a group, flagging the crop with the region id when it exists
and leaving every other layer, group and crop untouched; when ownerId
resolves to nothing the state is returned unchanged.  The operation
does not check that regionId exists: with a resolved owner and an
unresolved region the queue item is appended anyway (see the
counterexample). -/
theorem handleAddToStitch_behaviour (freshId : String) (st : AppState)
    (ownerId regionId : String) :
    ((st.layers.any fun l => l.id = ownerId) = true →
       (handleAddToStitch freshId st ownerId regionId).groups = st.groups ∧
       (handleAddToStitch freshId st ownerId regionId).stitchItems =
         st.stitchItems ++ [⟨freshId, ownerId, regionId⟩] ∧
       List.Forall₂ (FlagsOwnerLayer ownerId regionId) st.layers
         (handleAddToStitch freshId st ownerId regionId).layers) ∧
    ((st.layers.any fun l => l.id = ownerId) = false →
     (st.groups.any fun g => g.id = ownerId) = true →
       (handleAddToStitch freshId st ownerId regionId).layers = st.layers ∧
       (handleAddToStitch freshId st ownerId regionId).stitchItems =
         st.stitchItems ++ [⟨freshId, ownerId, regionId⟩] ∧
       List.Forall₂ (FlagsOwnerGroup ownerId regionId) st.groups
         (handleAddToStitch freshId st ownerId regionId).groups) ∧
    ((st.layers.any fun l => l.id = ownerId) = false →
     (st.groups.any fun g => g.id = ownerId) = false →
       handleAddToStitch freshId st ownerId regionId = st) := by
  refine ⟨?_, ?_, ?_⟩
  · intro hlayer
    simp only [handleAddToStitch, hlayer, if_true]
    refine ⟨by trivial, by trivial, ?_⟩
    refine forall₂_map_self _ _ _ ?_
    intro l _
    constructor
    · intro hne
      simp [hne]
    · intro heq
      simp only [heq, ne_eq, not_true_eq_false, if_false]
      refine ⟨by trivial, by trivial, by trivial, by trivial, by trivial, by trivial, ?_⟩
      refine forall₂_map_self _ _ _ ?_
      intro c _
      constructor
      · intro hcne
        simp [FlagsCrop, hcne]
      · intro hceq
        simp [FlagsCrop, hceq]
  · intro hlayer hgroup
    simp only [handleAddToStitch, hlayer, hgroup, if_true, if_false,
      Bool.false_eq_true]
    refine ⟨by trivial, by trivial, ?_⟩
    refine forall₂_map_self _ _ _ ?_
    intro g _
    constructor
    · intro hne
      simp [hne]
    · intro heq
      simp only [heq, ne_eq, not_true_eq_false, if_false]
      refine ⟨by trivial, by trivial, by trivial, by trivial, ?_⟩
      refine forall₂_map_self _ _ _ ?_
      intro c _
      constructor
      · intro hcne
        simp [FlagsCrop, hcne]
      · intro hceq
        simp [FlagsCrop, hceq]
  · intro hlayer hgroup
    simp [handleAddToStitch, hlayer, hgroup]

/-- C2 counterexample: ownerId "L1" resolves to a layer but regionId
"r9" resolves to no region in it (the layer has no crops), yet
handleAddToStitch still appends a queue item, so the operation does not
fail and the stitch queue does not stay unchanged as the claim
states. -/
theorem enqueue_missing_region_still_appends :
    (emptyCropLayer.crops.all fun c => c.id ≠ "r9") = true ∧
    missingRegionState.stitchItems = [] ∧
    (handleAddToStitch "q1" missingRegionState "L1" "r9").stitchItems =
      [⟨"q1", "L1", "r9"⟩] := by
  refine ⟨rfl, rfl, ?_⟩
  decide

/-- Witness for the enqueue theorem: a resolved owner/region pair on a
concrete state. -/
theorem handleAddToStitch_behaviour_witness :
    (queuedState.layers.any fun l => l.id = "L1") = true ∧
    ((handleAddToStitch "q1" queuedState "L1" "c1").groups =
        queuedState.groups ∧
      (handleAddToStitch "q1" queuedState "L1" "c1").stitchItems =
        queuedState.stitchItems ++ [⟨"q1", "L1", "c1"⟩] ∧
      List.Forall₂ (FlagsOwnerLayer "L1" "c1") queuedState.layers
        (handleAddToStitch "q1" queuedState "L1" "c1").layers) :=
  ⟨by decide,
    (handleAddToStitch_behaviour "q1" queuedState "L1" "c1").1 (by decide)⟩

/-- C9: handleCreateGroup is a no-op on the layers and groups stores
when fewer than two of the selected ids refer to ungrouped layers;
otherwise it appends exactly one new group whose member list is exactly
the selected ungrouped layer ids in layer-list order, repoints exactly
those layers' groupId at the new group, and leaves every other layer
and every existing group unchanged.  Unique layer ids (a data-model
invariant) are assumed so that membership of an id in the new member
list identifies the layer. -/
theorem handleCreateGroup_behaviour (freshId : String)
    (selected : List String) (layers : List ImageLayer)
    (groups : List AssetGroup)
    (hnodup : (layers.map fun l => l.id).Nodup) :
    ((layers.filter fun l =>
        selected.contains l.id ∧ l.groupId = none).length < 2 →
      handleCreateGroup freshId selected layers groups = (layers, groups)) ∧
    (2 ≤ (layers.filter fun l =>
        selected.contains l.id ∧ l.groupId = none).length →
      (handleCreateGroup freshId selected layers groups).2 =
        groups ++ [⟨freshId, "Group " ++ toString (groups.length + 1),
          (layers.filter fun l =>
            selected.contains l.id ∧ l.groupId = none).map fun l => l.id,
          [], none⟩] ∧
      List.Forall₂ (fun l l' : ImageLayer =>
          ((selected.contains l.id = true ∧ l.groupId = none) →
            l' = { l with groupId := some freshId }) ∧
          (¬ (selected.contains l.id = true ∧ l.groupId = none) → l' = l))
        layers (handleCreateGroup freshId selected layers groups).1) := by
  constructor
  · intro hlt
    simp only [handleCreateGroup, if_pos hlt]
  · intro hge
    have hnot : ¬ (layers.filter fun l =>
        selected.contains l.id ∧ l.groupId = none).length < 2 :=
      Nat.not_lt.mpr hge
    simp only [handleCreateGroup, if_neg hnot, createGroupFromLayers]
    refine ⟨by trivial, ?_⟩
    refine forall₂_map_self _ _ _ ?_
    intro l hl
    constructor
    · intro hp
      have hpm : l.id ∈ selected := by simpa using hp.1
      have hmemf : l ∈ layers.filter fun l =>
          selected.contains l.id ∧ l.groupId = none :=
        List.mem_filter.mpr ⟨hl, by simp [hpm, hp.2]⟩
      have hcont : ((layers.filter fun l =>
          selected.contains l.id ∧ l.groupId = none).map
            fun l => l.id).contains l.id = true := by
        have hmem : l.id ∈ (layers.filter fun l =>
            selected.contains l.id ∧ l.groupId = none).map
              fun l => l.id := List.mem_map.mpr ⟨l, hmemf, rfl⟩
        simpa using hmem
      rw [if_pos hcont]
    · intro hp
      have hcont : ¬ (((layers.filter fun l =>
          selected.contains l.id ∧ l.groupId = none).map
            fun l => l.id).contains l.id = true) := by
        intro hcon
        have hmem : l.id ∈ (layers.filter fun l =>
            selected.contains l.id ∧ l.groupId = none).map
              fun l => l.id := by simpa using hcon
        rcases List.mem_map.mp hmem with ⟨l2, hl2f, hid⟩
        have hl2 : l2 ∈ layers := (List.mem_filter.mp hl2f).1
        have hpl2 : selected.contains l2.id = true ∧ l2.groupId = none := by
          have hb := (List.mem_filter.mp hl2f).2
          have hprop := of_decide_eq_true hb
          exact ⟨by simpa using hprop.1, hprop.2⟩
        have heql : l2 = l := List.inj_on_of_nodup_map hnodup hl2 hl hid
        subst heql
        exact hp hpl2
      rw [if_neg hcont]

/-- Witness for the grouping theorem: two selected ungrouped layers on
a concrete store. -/
theorem handleCreateGroup_behaviour_witness :
    (([groupLayerA, groupLayerB].map fun l => l.id).Nodup ∧
      2 ≤ ([groupLayerA, groupLayerB].filter fun l =>
        (["A", "B"] : List String).contains l.id ∧
          l.groupId = none).length) ∧
    ((handleCreateGroup "G1" ["A", "B"] [groupLayerA, groupLayerB]
        ([] : List AssetGroup)).2 =
      ([] : List AssetGroup) ++ [⟨"G1",
        "Group " ++ toString (([] : List AssetGroup).length + 1),
        ([groupLayerA, groupLayerB].filter fun l =>
          (["A", "B"] : List String).contains l.id ∧
            l.groupId = none).map fun l => l.id, [], none⟩] ∧
      List.Forall₂ (fun l l' : ImageLayer =>
          (((["A", "B"] : List String).contains l.id = true ∧
              l.groupId = none) →
            l' = { l with groupId := some "G1" }) ∧
          (¬ ((["A", "B"] : List String).contains l.id = true ∧
              l.groupId = none) → l' = l))
        [groupLayerA, groupLayerB]
        (handleCreateGroup "G1" ["A", "B"] [groupLayerA, groupLayerB]
          ([] : List AssetGroup)).1) :=
  ⟨⟨by decide, by decide⟩,
    (handleCreateGroup_behaviour "G1" ["A", "B"]
      [groupLayerA, groupLayerB] ([] : List AssetGroup) (by decide)).2
      (by decide)⟩

/-- The anchored corner of a drag-to-select box plus its absolute span
stays below any bound that both pointer coordinates respect. -/
lemma min_add_abs_sub_le (a b M : ℚ) (ha : a ≤ M) (hb : b ≤ M) :
    min a b + |b - a| ≤ M := by
  rcases le_total a b with h | h
  · rw [min_eq_left h, abs_of_nonneg (by linarith)]
    linarith
  · rw [min_eq_right h, abs_of_nonpos (by linarith)]
    linarith

/-- Every move/resize update preserves the region invariant: the
clamping in handleWindowMouseMove keeps the rectangle inside [0,100]
with both sides at least 1, for every pointer displacement, provided
the pointer-down snapshot satisfied the invariant. -/
lemma applyMove_invariant (mode : InteractionMode)
    (hmode : mode ≠ .create) (init : CropRegion)
    (hinit : RegionInvariant init) (dx dy : ℚ) :
    RegionInvariant (applyMove mode init dx dy) := by
  obtain ⟨hx, hy, hxw, hyh, hw, hh⟩ := hinit
  cases mode with
  | create => exact absurd rfl hmode
  | move =>
      simp only [applyMove, RegionInvariant]
      have h1 : min (max 0 (init.x + dx)) (100 - init.width) ≤
          100 - init.width := min_le_right _ _
      have h2 : min (max 0 (init.y + dy)) (100 - init.height) ≤
          100 - init.height := min_le_right _ _
      refine ⟨le_min (le_max_left _ _) (by linarith),
        le_min (le_max_left _ _) (by linarith),
        by linarith, by linarith, hw, hh⟩
  | resizeSE =>
      simp only [applyMove, RegionInvariant]
      have h1 : min (init.width + dx) (100 - init.x) ≤ 100 - init.x :=
        min_le_right _ _
      have h2 : min (init.height + dy) (100 - init.y) ≤ 100 - init.y :=
        min_le_right _ _
      refine ⟨hx, hy, ?_, ?_, le_max_left _ _, le_max_left _ _⟩
      · have := max_le (a := (1:ℚ)) (by linarith) h1
        linarith
      · have := max_le (a := (1:ℚ)) (by linarith) h2
        linarith
  | resizeSW =>
      simp only [applyMove, RegionInvariant]
      have hnx0 : (0:ℚ) ≤ max 0 (min (init.x + dx) (init.x + init.width - 1)) :=
        le_max_left _ _
      have hnx1 : max 0 (min (init.x + dx) (init.x + init.width - 1)) ≤
          init.x + init.width - 1 :=
        max_le (by linarith) (min_le_right _ _)
      have h2 : min (init.height + dy) (100 - init.y) ≤ 100 - init.y :=
        min_le_right _ _
      refine ⟨hnx0, hy, by linarith, ?_, by linarith, le_max_left _ _⟩
      have := max_le (a := (1:ℚ)) (by linarith) h2
      linarith
  | resizeNE =>
      simp only [applyMove, RegionInvariant]
      have hny0 : (0:ℚ) ≤ max 0 (min (init.y + dy) (init.y + init.height - 1)) :=
        le_max_left _ _
      have hny1 : max 0 (min (init.y + dy) (init.y + init.height - 1)) ≤
          init.y + init.height - 1 :=
        max_le (by linarith) (min_le_right _ _)
      have h1 : min (init.width + dx) (100 - init.x) ≤ 100 - init.x :=
        min_le_right _ _
      refine ⟨hx, hny0, ?_, by linarith, le_max_left _ _, by linarith⟩
      have := max_le (a := (1:ℚ)) (by linarith) h1
      linarith
  | resizeNW =>
      simp only [applyMove, RegionInvariant]
      have hnx0 : (0:ℚ) ≤ max 0 (min (init.x + dx) (init.x + init.width - 1)) :=
        le_max_left _ _
      have hnx1 : max 0 (min (init.x + dx) (init.x + init.width - 1)) ≤
          init.x + init.width - 1 :=
        max_le (by linarith) (min_le_right _ _)
      have hny0 : (0:ℚ) ≤ max 0 (min (init.y + dy) (init.y + init.height - 1)) :=
        le_max_left _ _
      have hny1 : max 0 (min (init.y + dy) (init.y + init.height - 1)) ≤
          init.y + init.height - 1 :=
        max_le (by linarith) (min_le_right _ _)
      exact ⟨hnx0, hny0, by linarith, by linarith, by linarith, by linarith⟩

/-- For a non-create interaction the pointer-up handler reduces to the
replace-by-id commit. -/
lemma handleWindowMouseUp_noncreate (i : Interaction)
    (hmode : i.mode ≠ .create) (opt : Option CropRegion)
    (posX posY : ℚ) (fid : String) (crops : List CropRegion) :
    handleWindowMouseUp (some i) opt posX posY fid crops =
      match opt, i.activeId with
      | some finalCrop, some activeId =>
          crops.map fun c => if c.id = activeId then finalCrop else c
      | _, _ => crops := by
  obtain ⟨m, sx, sy, ic, aid⟩ := i
  cases m
  case create => exact absurd rfl hmode
  all_goals rfl

/-- For a non-create interaction the pointer-move handler reduces to
applyMove on the snapshot. -/
lemma handleWindowMouseMove_noncreate (i : Interaction)
    (hmode : i.mode ≠ .create) (posX posY : ℚ) :
    handleWindowMouseMove i posX posY =
      match i.initialCrop, i.activeId with
      | some init, some _ =>
          some (applyMove i.mode init (posX - i.startX) (posY - i.startY))
      | _, _ => none := by
  obtain ⟨m, sx, sy, ic, aid⟩ := i
  cases m
  case create => exact absurd rfl hmode
  all_goals rfl

/-- C1 (amended): every rectangle committed by pointer-up satisfies the
region invariant, provided (a) for a create gesture both the anchor and
the release position lie inside the container (percentage coordinates
in [0,100] on both axes), and (b) for a move/resize gesture the
optimistic crop is either the pointer-down snapshot itself or the
result of some pointer-move from a snapshot satisfying the invariant.
Move/resize commits need no bound on the pointer positions — the
clamping alone keeps them legal — but create commits do: the creation
path stores the raw pointer coordinates, so a pointer released outside
the container commits an out-of-bounds rectangle (see the
counterexample). -/
theorem committed_region_invariant (mode : InteractionMode)
    (startX startY : ℚ) (initCrop : Option CropRegion)
    (aid : Option String) (optimistic : Option CropRegion)
    (posX posY : ℚ) (fid : String) (crops : List CropRegion)
    (hcreate : mode = .create →
      0 ≤ startX ∧ startX ≤ 100 ∧ 0 ≤ startY ∧ startY ≤ 100 ∧
      0 ≤ posX ∧ posX ≤ 100 ∧ 0 ≤ posY ∧ posY ≤ 100)
    (hopt : optimistic = none ∨
      ∃ init, initCrop = some init ∧ RegionInvariant init ∧
        (optimistic = some init ∨
          ∃ qx qy, optimistic =
            handleWindowMouseMove ⟨mode, startX, startY, initCrop, aid⟩
              qx qy)) :
    ∀ c ∈ handleWindowMouseUp
        (some ⟨mode, startX, startY, initCrop, aid⟩)
        optimistic posX posY fid crops,
      c ∈ crops ∨ RegionInvariant c := by
  by_cases hm : mode = .create
  · subst hm
    intro c hc
    obtain ⟨hsx0, hsx1, hsy0, hsy1, hpx0, hpx1, hpy0, hpy1⟩ := hcreate rfl
    simp only [handleWindowMouseUp] at hc
    by_cases hcond : 1 < |posX - startX| ∧ 1 < |posY - startY|
    · rw [if_pos hcond] at hc
      rcases List.mem_append.mp hc with hold | hnew
      · exact Or.inl hold
      · right
        have hceq : c = ⟨fid, min startX posX, min startY posY,
            |posX - startX|, |posY - startY|, false, none, false⟩ := by
          simpa using hnew
        subst hceq
        exact ⟨le_min hsx0 hpx0, le_min hsy0 hpy0,
          min_add_abs_sub_le _ _ _ hsx1 hpx1,
          min_add_abs_sub_le _ _ _ hsy1 hpy1,
          le_of_lt hcond.1, le_of_lt hcond.2⟩
    · rw [if_neg hcond] at hc
      exact Or.inl hc
  · intro c hc
    rw [handleWindowMouseUp_noncreate _ hm] at hc
    rcases optimistic with _ | fc
    · exact Or.inl hc
    · rcases aid with _ | a
      · exact Or.inl hc
      · rcases List.mem_map.mp hc with ⟨orig, horig, heq⟩
        by_cases hid : orig.id = a
        · rw [if_pos hid] at heq
          subst heq
          rcases hopt with hnone | ⟨init, hinit, hinv, hfc | ⟨qx, qy, hfc⟩⟩
          · cases hnone
          · right
            injection hfc with h
            rw [h]
            exact hinv
          · rw [handleWindowMouseMove_noncreate _ hm] at hfc
            simp only [hinit] at hfc
            injection hfc with h
            rw [h]
            exact Or.inr (applyMove_invariant mode hm init hinv _ _)
        · rw [if_neg hid] at heq
          subst heq
          exact Or.inl horig

/-- C1 counterexample: a create gesture anchored at (50,50) inside the
container and released at (−10,60) — the pointer moved outside the
container, which the window-level listener allows — commits a region
with x = −10 and width 60, so the claimed bound 0 ≤ x fails for a
committed rectangle. -/
theorem create_commit_escapes_bounds :
    (handleWindowMouseUp (some ⟨.create, 50, 50, none, none⟩) none
        (-10) 60 "r1" []).map
      (fun c => (c.x, c.y, c.width, c.height)) =
      [((-10 : ℚ), (50 : ℚ), (60 : ℚ), (10 : ℚ))] ∧
    ¬ ((0 : ℚ) ≤ -10) := by
  constructor
  · simp only [handleWindowMouseUp]
    norm_num
  · norm_num

/-- Witness for the commit-invariant theorem: an in-bounds create
gesture from (20,30) to (70,90) over an empty crop list. -/
theorem committed_region_invariant_witness :
    ((InteractionMode.create = InteractionMode.create →
      (0:ℚ) ≤ 20 ∧ (20:ℚ) ≤ 100 ∧ (0:ℚ) ≤ 30 ∧ (30:ℚ) ≤ 100 ∧
      (0:ℚ) ≤ 70 ∧ (70:ℚ) ≤ 100 ∧ (0:ℚ) ≤ 90 ∧ (90:ℚ) ≤ 100) ∧
      ((none : Option CropRegion) = none ∨
        ∃ init, (none : Option CropRegion) = some init ∧
          RegionInvariant init ∧
          ((none : Option CropRegion) = some init ∨
            ∃ qx qy, (none : Option CropRegion) =
              handleWindowMouseMove
                ⟨.create, 20, 30, none, none⟩ qx qy))) ∧
    ∀ c ∈ handleWindowMouseUp (some ⟨.create, 20, 30, none, none⟩)
        none 70 90 "w1" [],
      c ∈ ([] : List CropRegion) ∨ RegionInvariant c :=
  ⟨⟨fun _ => by decide, Or.inl rfl⟩,
    committed_region_invariant .create 20 30 none none none 70 90 "w1" []
      (fun _ => by decide) (Or.inl rfl)⟩

/-- C5: on containerWidth 1200, targetRowHeight 300, spacing 12 and
aspect ratios 2.0, 1.0, 1.5 the packer closes a single row holding all
three images (600+300+450 plus two gaps reaches 1200), the sparse
last-row exemption does not fire (4.5 is not below 0.6·(1152/300)),
the recomputed row height is exactly (1200−2·12−2·12)/4.5 = 256, and
every laid-out item gets height 256. -/
theorem example_layout_single_row_height_256 :
    buildRows exampleSettings exampleImages [] 0 = [exampleRow] ∧
    ¬ (rowAspectSum exampleRow <
        availableWidthFor exampleSettings exampleRow /
          exampleSettings.targetRowHeight * (3 / 5)) ∧
    rowHeightFor exampleSettings true exampleRow = 256 ∧
    ((generateSmartStitch exampleImages exampleSettings).1.map
      fun it => it.height) = [256, 256, 256] := by
  refine ⟨?_, ?_, ?_, ?_⟩
  · norm_num [buildRows, exampleImages, exampleSettings, exampleRow]
  · norm_num [rowAspectSum, availableWidthFor, exampleRow, exampleSettings]
  · norm_num [rowHeightFor, rowAspectSum, availableWidthFor, exampleRow,
      exampleSettings]
  · norm_num [generateSmartStitch, buildRows, layoutRows, rowItemsFrom,
      rowHeightFor, rowAspectSum, availableWidthFor, exampleImages,
      exampleSettings]

/-- qceil agrees with the mathematical ceiling, so the canvas really
takes ceilings as Math.ceil does. -/
lemma qceil_eq_ceil (q : ℚ) : qceil q = ⌈q⌉ := by
  unfold qceil
  have h : (0 : ℤ) ≤ ((-q).den : ℤ) := Int.ofNat_nonneg _
  rw [Int.fdiv_eq_ediv _ h, ← Rat.floor_def, ← Int.ceil_neg, neg_neg]

/-- The width-accumulating fold of generateStitchedCanvas computes the
sum and the list of scaled dimensions. -/
lemma stitch_width_fold (m : ℚ) (items : List LoadedImage) :
    ∀ (a : ℚ) (l : List (ℚ × ℚ)),
    items.foldl (fun (acc : ℚ × List (ℚ × ℚ)) img =>
        (acc.1 + img.width / img.height * m,
         acc.2 ++ [(img.width / img.height * m, m)])) (a, l) =
      (a + (items.map fun i => i.width / i.height * m).sum,
       l ++ items.map fun i => (i.width / i.height * m, m)) := by
  induction items with
  | nil => intro a l; simp
  | cons i rest ih =>
      intro a l
      simp only [List.foldl_cons, List.map_cons, List.sum_cons]
      rw [ih]
      simp [add_assoc]

/-- The draw fold of generateStitchedCanvas accumulates exactly the
left-to-right placement. -/
lemma stitch_draw_fold :
    ∀ (dims : List (ℚ × ℚ)) (x0 : ℚ) (ds : List DrawCommand),
    dims.foldl (fun (a : ℚ × List DrawCommand) dim =>
        (a.1 + dim.1, a.2 ++ [⟨a.1, 0, dim.1, dim.2⟩])) (x0, ds) =
      (x0 + (dims.map Prod.fst).sum, ds ++ drawsFrom x0 dims) := by
  intro dims
  induction dims with
  | nil => intro x0 ds; simp [drawsFrom]
  | cons d rest ih =>
      intro x0 ds
      simp only [List.foldl_cons, List.map_cons, List.sum_cons, drawsFrom]
      rw [ih]
      simp [add_assoc]

/-- drawsFrom over constant-height dimensions is the prefix-sum draw
list. -/
lemma drawsFrom_prefix_sums (m : ℚ) :
    ∀ (ws : List ℚ) (x0 : ℚ),
    drawsFrom x0 (ws.map fun w => (w, m)) =
      (List.range ws.length).map fun k =>
        ⟨x0 + (ws.take k).sum, 0, ws.getD k 0, m⟩ := by
  intro ws
  induction ws with
  | nil => intro x0; simp [drawsFrom]
  | cons w ws ih =>
      intro x0
      simp only [List.map_cons, drawsFrom, List.length_cons,
        List.range_succ_eq_map, List.map_map]
      congr 1
      · simp
      · rw [ih (x0 + w)]
        apply List.map_congr_left
        intro k _
        simp [Function.comp, add_assoc]

/-- The target height really is the maximum: it occurs among the
heights and bounds every height. -/
lemma maxHeightOf_is_max (items : List LoadedImage) (hne : items ≠ []) :
    maxHeightOf items ∈ items.map (fun i => i.height) ∧
    ∀ i ∈ items, i.height ≤ maxHeightOf items := by
  have hne2 : items.map (fun i => i.height) ≠ [] := by simpa using hne
  obtain ⟨m, hm⟩ :=
    Option.ne_none_iff_exists'.mp (List.maximum_ne_bot_of_ne_nil hne2)
  have hgd : maxHeightOf items = m := by
    unfold maxHeightOf
    rw [List.getD_max?_eq_unbot'_maximum, hm]
    rfl
  constructor
  · rw [hgd]
    exact List.maximum_mem hm
  · intro i hi
    rw [hgd]
    have hmem : i.height ∈ items.map (fun i => i.height) :=
      List.mem_map.mpr ⟨i, hi, rfl⟩
    have hle := List.le_maximum_of_mem' hmem
    rw [hm] at hle
    exact WithBot.coe_le_coe.mp hle

/-- C6: for every non-empty source list, generateStitchedCanvas scales
each source to the common target height — the maximum height over all
sources — preserving its aspect ratio (scaled width = width/height ×
target height), draws the sources left-to-right with no gaps in input
order (the k-th draw starts at the sum of the previous scaled widths,
at y = 0), and the canvas is ⌈sum of scaled widths⌉ × ⌈target height⌉;
in particular an 800×600 and a 400×600 source yield a 1200×600 canvas
with the two sources drawn at x = 0 and x = 800. -/
theorem generateStitchedCanvas_spec (items : List LoadedImage)
    (hne : items ≠ []) :
    (∃ canvas, generateStitchedCanvas items = some canvas ∧
      canvas.height = ⌈maxHeightOf items⌉ ∧
      canvas.width = ⌈(scaledWidthsOf items).sum⌉ ∧
      canvas.draws = stitchDrawList items) ∧
    maxHeightOf items ∈ items.map (fun i => i.height) ∧
    (∀ i ∈ items, i.height ≤ maxHeightOf items) ∧
    generateStitchedCanvas [⟨800, 600⟩, ⟨400, 600⟩] =
      some ⟨1200, 600, [⟨0, 0, 800, 600⟩, ⟨800, 0, 400, 600⟩]⟩ := by
  obtain ⟨hmem, hbound⟩ := maxHeightOf_is_max items hne
  refine ⟨?_, hmem, hbound, ?_⟩
  · refine ⟨⟨qceil ((scaledWidthsOf items).sum), qceil (maxHeightOf items),
      stitchDrawList items⟩, ?_, qceil_eq_ceil _, qceil_eq_ceil _, rfl⟩
    simp only [generateStitchedCanvas]
    rw [if_neg (by simpa using hne)]
    have hmx : ((items.map fun i => i.height).max?).getD 0 =
        maxHeightOf items := rfl
    rw [hmx, stitch_width_fold]
    simp only [List.nil_append]
    have hdim : (items.map fun i =>
        (i.width / i.height * maxHeightOf items, maxHeightOf items)) =
        (scaledWidthsOf items).map fun w => (w, maxHeightOf items) := by
      simp [scaledWidthsOf, List.map_map, Function.comp]
    rw [hdim, stitch_draw_fold]
    simp only [List.nil_append]
    rw [drawsFrom_prefix_sums]
    have hsw : (items.map fun i =>
        i.width / i.height * maxHeightOf items) = scaledWidthsOf items :=
      rfl
    rw [hsw]
    simp [stitchDrawList, scaledWidthsOf, zero_add]
  · have h1 : generateStitchedCanvas [⟨800, 600⟩, ⟨400, 600⟩] =
        some ⟨qceil 1200, qceil 600, [⟨0, 0, 800, 600⟩, ⟨800, 0, 400, 600⟩]⟩ := by
      simp only [generateStitchedCanvas]
      norm_num [List.max?, List.foldl]
    rw [h1]
    norm_num [qceil_eq_ceil]

/-- Witness for the horizontal-stitch theorem: the two-source example
itself. -/
theorem generateStitchedCanvas_spec_witness :
    (([⟨800, 600⟩, ⟨400, 600⟩] : List LoadedImage) ≠ []) ∧
    ((∃ canvas,
        generateStitchedCanvas
          ([⟨800, 600⟩, ⟨400, 600⟩] : List LoadedImage) = some canvas ∧
        canvas.height =
          ⌈maxHeightOf ([⟨800, 600⟩, ⟨400, 600⟩] : List LoadedImage)⌉ ∧
        canvas.width =
          ⌈(scaledWidthsOf
              ([⟨800, 600⟩, ⟨400, 600⟩] : List LoadedImage)).sum⌉ ∧
        canvas.draws =
          stitchDrawList ([⟨800, 600⟩, ⟨400, 600⟩] : List LoadedImage)) ∧
      maxHeightOf ([⟨800, 600⟩, ⟨400, 600⟩] : List LoadedImage) ∈
        ([⟨800, 600⟩, ⟨400, 600⟩] : List LoadedImage).map
          (fun i => i.height) ∧
      (∀ i ∈ ([⟨800, 600⟩, ⟨400, 600⟩] : List LoadedImage),
        i.height ≤
          maxHeightOf ([⟨800, 600⟩, ⟨400, 600⟩] : List LoadedImage)) ∧
      generateStitchedCanvas [⟨800, 600⟩, ⟨400, 600⟩] =
        some ⟨1200, 600, [⟨0, 0, 800, 600⟩, ⟨800, 0, 400, 600⟩]⟩) :=
  ⟨by decide,
    generateStitchedCanvas_spec [⟨800, 600⟩, ⟨400, 600⟩] (by decide)⟩

/-- Every row the packer builds is non-empty, and when the input images
have positive dimensions every entry's aspect ratio is positive (the
accumulator hypothesis covers the row under construction). -/
lemma buildRows_rows_pos (s : StitchSettings) :
    ∀ (images : List SmartStitchImage) (currentRow : List RowEntry)
      (currentWidth : ℚ),
    (∀ img ∈ images, 0 < img.width ∧ 0 < img.height) →
    (∀ e ∈ currentRow, 0 < e.aspect) →
    ∀ row ∈ buildRows s images currentRow currentWidth,
      row ≠ [] ∧ ∀ e ∈ row, 0 < e.aspect := by
  intro images
  induction images with
  | nil =>
      intro currentRow currentWidth _ hcr row hrow
      simp only [buildRows] at hrow
      split at hrow
      · rcases List.mem_singleton.mp hrow with rfl
        refine ⟨List.length_pos.mp (by assumption), hcr⟩
      · cases hrow
  | cons img rest ih =>
      intro currentRow currentWidth himg hcr row hrow
      have himgrest : ∀ i ∈ rest, 0 < i.width ∧ 0 < i.height :=
        fun i hi => himg i (List.mem_cons_of_mem _ hi)
      have haspect : (0 : ℚ) < img.width / img.height :=
        div_pos (himg img (List.mem_cons_self _ _)).1
          (himg img (List.mem_cons_self _ _)).2
      have hrowaug : ∀ e ∈ currentRow ++
          [(⟨img, img.width / img.height,
            s.targetRowHeight * (img.width / img.height)⟩ : RowEntry)],
          0 < e.aspect := by
        intro e he
        rcases List.mem_append.mp he with he | he
        · exact hcr e he
        · rcases List.mem_singleton.mp he with rfl
          exact haspect
      simp only [buildRows] at hrow
      split at hrow
      · rcases List.mem_cons.mp hrow with rfl | hrow'
        · exact ⟨by simp, hrowaug⟩
        · exact ih [] 0 himgrest (by simp) row hrow'
      · exact ih _ _ himgrest hrowaug row hrow

/-- The final widths of a laid-out row sum to the row height times the
row's aggregate aspect ratio, independent of the starting x. -/
lemma rowItems_width_sum (s : StitchSettings) (rh y : ℚ) :
    ∀ (row : List RowEntry) (x : ℚ),
    ((rowItemsFrom s rh y row x).map fun it => it.width).sum =
      rh * rowAspectSum row := by
  intro row
  induction row with
  | nil => intro x; simp [rowItemsFrom, rowAspectSum]
  | cons e rest ih =>
      intro x
      simp only [rowItemsFrom, rowAspectSum, List.map_cons, List.sum_cons]
      rw [ih]
      simp only [rowAspectSum]
      ring

/-- The y accumulator of the outer loop ends at the starting y plus all
row heights plus one spacing per row. -/
lemma layoutRows_total (s : StitchSettings) :
    ∀ (rows : List (List RowEntry)) (y : ℚ),
    (layoutRows s rows y).2 =
      y + (rowHeightsList s rows).sum + rows.length * s.spacing := by
  intro rows
  induction rows with
  | nil => intro y; simp [layoutRows, rowHeightsList]
  | cons row rest ih =>
      intro y
      simp only [layoutRows, rowHeightsList, List.sum_cons,
        List.length_cons]
      rw [ih]
      push_cast
      ring

/-- C3 (amended): in each non-exempt row the final scaled widths plus
the inter-item gaps total containerWidth − 2·spacing exactly (the two
outer margins are also spacing-wide, so the claim's containerWidth is
off by 2·spacing — see the counterexample); and the computed canvas
height equals the sum of all row heights plus spacing × (rows + 1),
exactly, for every input. -/
theorem justified_layout_geometry (images : List SmartStitchImage)
    (s : StitchSettings)
    (hpos : ∀ img ∈ images, 0 < img.width ∧ 0 < img.height) :
    (∀ row ∈ buildRows s images [] 0, ∀ (isLast : Bool) (y x : ℚ),
      ¬ (isLast = true ∧ 0 < row.length ∧
          rowAspectSum row <
            availableWidthFor s row / s.targetRowHeight * (3 / 5)) →
      ((rowItemsFrom s (rowHeightFor s isLast row) y row x).map
          fun it => it.width).sum +
        ((row.length : ℚ) - 1) * s.spacing =
        s.containerWidth - 2 * s.spacing) ∧
    (generateSmartStitch images s).2 =
      (rowHeightsList s (buildRows s images [] 0)).sum +
        ((buildRows s images [] 0).length + 1) * s.spacing := by
  constructor
  · intro row hrow isLast y x hnex
    obtain ⟨hne, hasp⟩ := buildRows_rows_pos s images [] 0 hpos
      (by simp) row hrow
    have hsum : 0 < rowAspectSum row := by
      refine List.sum_pos _ ?_ ?_
      · intro a ha
        rcases List.mem_map.mp ha with ⟨e, he, rfl⟩
        exact hasp e he
      · simpa using hne
    rw [rowItems_width_sum]
    rw [rowHeightFor, if_neg hnex]
    rw [div_mul_cancel₀ _ (ne_of_gt hsum)]
    unfold availableWidthFor
    ring
  · unfold generateSmartStitch
    rw [layoutRows_total]
    ring

/-- C3 counterexample: on the 1200/300/12 example the single packed row
is non-exempt, its final widths plus inter-item gaps total 1176 = 1200
− 2·12, and 1176 differs from the containerWidth 1200 by the two outer
margins — far beyond rounding tolerance — so the claimed row-width
equation fails. -/
theorem row_width_misses_container_width :
    ¬ (rowAspectSum exampleRow <
        availableWidthFor exampleSettings exampleRow /
          exampleSettings.targetRowHeight * (3 / 5)) ∧
    ((rowItemsFrom exampleSettings
        (rowHeightFor exampleSettings true exampleRow) 12 exampleRow
        12).map (fun it => it.width)).sum +
      ((exampleRow.length : ℚ) - 1) * exampleSettings.spacing = 1176 ∧
    exampleSettings.containerWidth = 1200 ∧ (1176 : ℚ) ≠ 1200 := by
  refine ⟨?_, ?_, rfl, by norm_num⟩
  · norm_num [rowAspectSum, availableWidthFor, exampleRow, exampleSettings]
  · norm_num [rowItemsFrom, rowHeightFor, rowAspectSum,
      availableWidthFor, exampleRow, exampleSettings]

/-- Witness for the justified-layout theorem: the three-image example
has positive dimensions throughout. -/
theorem justified_layout_geometry_witness :
    (∀ img ∈ exampleImages, 0 < img.width ∧ 0 < img.height) ∧
    ((∀ row ∈ buildRows exampleSettings exampleImages [] 0,
       ∀ (isLast : Bool) (y x : ℚ),
      ¬ (isLast = true ∧ 0 < row.length ∧
          rowAspectSum row <
            availableWidthFor exampleSettings row /
              exampleSettings.targetRowHeight * (3 / 5)) →
      ((rowItemsFrom exampleSettings
          (rowHeightFor exampleSettings isLast row) y row x).map
          fun it => it.width).sum +
        ((row.length : ℚ) - 1) * exampleSettings.spacing =
        exampleSettings.containerWidth - 2 * exampleSettings.spacing) ∧
     (generateSmartStitch exampleImages exampleSettings).2 =
      (rowHeightsList exampleSettings
          (buildRows exampleSettings exampleImages [] 0)).sum +
        ((buildRows exampleSettings exampleImages [] 0).length + 1) *
          exampleSettings.spacing) :=
  ⟨by decide,
    justified_layout_geometry exampleImages exampleSettings (by decide)⟩

/-- The id itself always appears in its collected subtree. -/
lemma self_mem_getSubGroups (groups : List AssetGroup) (fuel : Nat)
    (a : String) : a ∈ getSubGroups groups fuel a := by
  cases fuel <;> simp [getSubGroups]

/-- Chain-reachable descendants are collected by getSubGroups whenever
the fuel covers the chain length. -/
lemma subChain_mem_getSubGroups (groups : List AssetGroup)
    {n : Nat} {a c : String} (h : SubChain groups n a c) :
    ∀ fuel, n ≤ fuel → c ∈ getSubGroups groups fuel a := by
  induction h with
  | refl a => intro fuel _; exact self_mem_getSubGroups groups fuel a
  | step g hg hp h ih =>
      intro fuel hle
      cases fuel with
      | zero => omega
      | succ m =>
          simp only [getSubGroups]
          refine List.mem_cons_of_mem _ (List.mem_flatMap.mpr ?_)
          refine ⟨g.id, List.mem_map.mpr ⟨g, ?_, rfl⟩, ih m (by omega)⟩
          exact List.mem_filter.mpr ⟨hg, by simp [hp]⟩

/-- C4: deleting a group removes the named group, every descendant
group reachable through a parentGroupId chain (of any length the group
store can hold), and every layer referenced by any removed group's
member list; afterwards no remaining layer's groupId references a
removed group (given the data-model consistency that a set groupId
always points to a group listing the layer), and the active selection
is cleared when it pointed at any removed group or removed layer. -/
theorem deleteGroup_cascade (id : String) (layers : List ImageLayer)
    (groups : List AssetGroup) (activeAssetId : Option String)
    (hconsist : ∀ l ∈ layers, l.groupId = none ∨
      ∃ g ∈ groups, some g.id = l.groupId ∧ l.id ∈ g.layerIds) :
    (∀ g ∈ (handleDeleteItemGroup id layers groups activeAssetId).2.1,
      g.id ≠ id) ∧
    (∀ n gid, SubChain groups n id gid → n ≤ groups.length →
      ∀ g ∈ (handleDeleteItemGroup id layers groups activeAssetId).2.1,
        g.id ≠ gid) ∧
    (∀ n gid, SubChain groups n id gid → n ≤ groups.length →
      ∀ g ∈ groups, g.id = gid → ∀ lid ∈ g.layerIds,
        ∀ l ∈ (handleDeleteItemGroup id layers groups activeAssetId).1,
          l.id ≠ lid) ∧
    (∀ l ∈ (handleDeleteItemGroup id layers groups activeAssetId).1,
      l.groupId = none ∨
      ∃ g ∈ (handleDeleteItemGroup id layers groups activeAssetId).2.1,
        some g.id = l.groupId) ∧
    (∀ n gid, SubChain groups n id gid → n ≤ groups.length →
      activeAssetId = some gid →
      (handleDeleteItemGroup id layers groups activeAssetId).2.2 = none) ∧
    (∀ n gid (g : AssetGroup) (lid : String),
      SubChain groups n id gid → n ≤ groups.length →
      g ∈ groups → g.id = gid → lid ∈ g.layerIds →
      activeAssetId = some lid →
      (handleDeleteItemGroup id layers groups activeAssetId).2.2 = none) := by
  have hGroups : (handleDeleteItemGroup id layers groups activeAssetId).2.1 =
      groups.filter fun g =>
        ¬ (getSubGroups groups groups.length id).contains g.id := rfl
  have hLayers : (handleDeleteItemGroup id layers groups activeAssetId).1 =
      layers.filter fun l =>
        ¬ ((groups.filter fun g =>
            (getSubGroups groups groups.length id).contains g.id).flatMap
          fun g => g.layerIds).contains l.id := rfl
  have hallG : ∀ gid, gid ∈ getSubGroups groups groups.length id →
      ∀ g ∈ (handleDeleteItemGroup id layers groups activeAssetId).2.1,
        g.id ≠ gid := by
    intro gid hgid g hg heq
    rw [hGroups] at hg
    have hcond := of_decide_eq_true (List.mem_filter.mp hg).2
    exact hcond (by simpa [heq] using hgid)
  have hallL : ∀ lid,
      lid ∈ ((groups.filter fun g =>
          (getSubGroups groups groups.length id).contains g.id).flatMap
        fun g => g.layerIds) →
      ∀ l ∈ (handleDeleteItemGroup id layers groups activeAssetId).1,
        l.id ≠ lid := by
    intro lid hlid l hl heq
    rw [hLayers] at hl
    have hcond := of_decide_eq_true (List.mem_filter.mp hl).2
    exact hcond (by simpa [heq] using hlid)
  refine ⟨?_, ?_, ?_, ?_, ?_, ?_⟩
  · exact hallG id (self_mem_getSubGroups groups groups.length id)
  · intro n gid hchain hlen
    exact hallG gid (subChain_mem_getSubGroups groups hchain _ hlen)
  · intro n gid hchain hlen g hg heq lid hlid
    have hgin : g ∈ groups.filter fun g =>
        (getSubGroups groups groups.length id).contains g.id := by
      refine List.mem_filter.mpr ⟨hg, ?_⟩
      have : gid ∈ getSubGroups groups groups.length id :=
        subChain_mem_getSubGroups groups hchain _ hlen
      simpa [heq] using this
    exact hallL lid (List.mem_flatMap.mpr ⟨g, hgin, hlid⟩)
  · intro l hl
    have hlmem : l ∈ layers := by
      rw [hLayers] at hl
      exact (List.mem_filter.mp hl).1
    rcases hconsist l hlmem with hnone | ⟨g, hg, heq, hmem⟩
    · exact Or.inl hnone
    · by_cases hc : g.id ∈ getSubGroups groups groups.length id
      · exfalso
        have hgin : g ∈ groups.filter fun g =>
            (getSubGroups groups groups.length id).contains g.id :=
          List.mem_filter.mpr ⟨hg, by simpa using hc⟩
        exact hallL l.id (List.mem_flatMap.mpr ⟨g, hgin, hmem⟩) l hl rfl
      · refine Or.inr ⟨g, ?_, heq⟩
        rw [hGroups]
        refine List.mem_filter.mpr ⟨hg, ?_⟩
        simpa using hc
  · intro n gid hchain hlen hact
    have hgid : gid ∈ getSubGroups groups groups.length id :=
      subChain_mem_getSubGroups groups hchain _ hlen
    have hcont : (getSubGroups groups groups.length id).contains gid =
        true := by simpa using hgid
    subst hact
    show (if (getSubGroups groups groups.length id).contains gid ∨
        ((groups.filter fun g =>
            (getSubGroups groups groups.length id).contains g.id).flatMap
          fun g => g.layerIds).contains gid
      then none else some gid) = none
    exact if_pos (Or.inl hcont)
  · intro n gid g lid hchain hlen hg heq hlid hact
    have hgin : g ∈ groups.filter fun g =>
        (getSubGroups groups groups.length id).contains g.id := by
      refine List.mem_filter.mpr ⟨hg, ?_⟩
      have hgid : gid ∈ getSubGroups groups groups.length id :=
        subChain_mem_getSubGroups groups hchain _ hlen
      simpa [heq] using hgid
    have hcont : ((groups.filter fun g =>
        (getSubGroups groups groups.length id).contains g.id).flatMap
          fun g => g.layerIds).contains lid = true := by
      have hmem : lid ∈ (groups.filter fun g =>
          (getSubGroups groups groups.length id).contains g.id).flatMap
            fun g => g.layerIds := List.mem_flatMap.mpr ⟨g, hgin, hlid⟩
      simpa using hmem
    subst hact
    show (if (getSubGroups groups groups.length id).contains lid ∨
        ((groups.filter fun g =>
            (getSubGroups groups groups.length id).contains g.id).flatMap
          fun g => g.layerIds).contains lid
      then none else some lid) = none
    exact if_pos (Or.inr hcont)

/-- Witness for the cascade-deletion theorem: a root group with two
nested subgroups, each owning one layer, the active selection on the
innermost layer; deleting the root removes the root and the chain-2
descendant and clears the selection. -/
theorem deleteGroup_cascade_witness :
    (∀ l ∈ wLayers, l.groupId = none ∨
      ∃ g ∈ wGroups, some g.id = l.groupId ∧ l.id ∈ g.layerIds) ∧
    (∀ g ∈ (handleDeleteItemGroup "G" wLayers wGroups (some "l3")).2.1,
      g.id ≠ "G") ∧
    (∀ g ∈ (handleDeleteItemGroup "G" wLayers wGroups (some "l3")).2.1,
      g.id ≠ "S2") ∧
    (handleDeleteItemGroup "G" wLayers wGroups (some "l3")).2.2 = none := by
  have hcons : ∀ l ∈ wLayers, l.groupId = none ∨
      ∃ g ∈ wGroups, some g.id = l.groupId ∧ l.id ∈ g.layerIds := by
    decide
  have hchain : SubChain wGroups 2 "G" "S2" :=
    SubChain.step wS1 (by decide) rfl
      (SubChain.step wS2 (by decide) rfl (SubChain.refl "S2"))
  have hmain := deleteGroup_cascade "G" wLayers wGroups (some "l3") hcons
  exact ⟨hcons, hmain.1,
    fun g hg => hmain.2.1 2 "S2" hchain (by decide) g hg,
    hmain.2.2.2.2.2 2 "S2" wS2 "l3" hchain (by decide) (by decide) rfl
      (by decide) rfl⟩
